import Mathlib

/-!
# Verification of the learning-orchestrator trading core

A shallow embedding, in Lean 4, of the core of the `learning-orchestrator`
repository: the SMC indicator engine (`smc-indicators`), the unified
confluence scorer (`unified-scoring`), the feature extractor's
multi-timeframe alignment check (`trade-features`), the trade outcome
simulator and backtest-learn loop (`backtest-learn-loop`), and the
histogram prediction model (`ml-model`).

JavaScript numbers are modelled as exact rationals (`ℚ`); the idealization
is noted wherever a floating-point literal such as `0.3` appears (we use
`3/10`).  JavaScript division by zero (which yields `Infinity`/`NaN`) is
modelled by Lean's convention `x / 0 = 0`; every theorem below either
avoids such a division or hypothesizes it away explicitly.
-/

set_option allowUnsafeReducibility true in
attribute [semireducible] Rat.add Rat.sub Rat.mul Rat.inv Rat.div

namespace LearningOrchestrator

/-- A price candle (interface `Candle` in `smc-indicators`). -/
structure Candle where
  timestamp : ℤ
  open_ : ℚ
  high : ℚ
  low : ℚ
  close : ℚ
  volume : ℚ
deriving DecidableEq, Repr

/-- Default candle used to totalize JS index accesses `candles[i]`.  Every
use below is guarded by the same loop bounds as the source, so the default
is never actually produced. -/
def defCandle : Candle := ⟨0, 0, 0, 0, 0, 0⟩

/-- JS array indexing `candles[i]`, totalized with `defCandle`. -/
def getC (candles : List Candle) (i : ℕ) : Candle :=
  (candles.get? i).getD defCandle

/-- Trend / break-of-structure direction (`'up' | 'down'`; `null` is
modelled as `none` at use sites). -/
inductive Dir where
  | up
  | down
deriving DecidableEq, Repr

/-- Order block record (interface `OrderBlock` in `smc-indicators`). -/
structure OrderBlock where
  index : ℕ
  timestamp : ℤ
  open_ : ℚ
  high : ℚ
  low : ℚ
  close : ℚ
  type : Dir
  strength : ℚ
deriving DecidableEq, Repr

/-- Fair value gap record (interface `FVG` in `smc-indicators`). -/
structure FVG where
  index : ℕ
  from_ : ℚ
  to_ : ℚ
  type : Dir
  size : ℚ
deriving DecidableEq, Repr

/-- One liquidity zone entry (`{price, touches, lastTouch}`). -/
structure LiquidityEntry where
  price : ℚ
  touches : ℕ
  lastTouch : ℕ
deriving DecidableEq, Repr

/-- Liquidity zones (interface `LiquidityZones`). -/
structure LiquidityZones where
  highs : List LiquidityEntry
  lows : List LiquidityEntry
deriving DecidableEq, Repr

/-- Analysis snapshot (interface `SMCAnalysis`).  The nullable numeric
fields are `Option ℚ`. -/
structure SMCAnalysis where
  trend : Option Dir
  bos : Option Dir
  ema50 : Option ℚ
  ema200 : Option ℚ
  rsi : Option ℚ
  orderBlocks : List OrderBlock
  fvg : List FVG
  liquidityZones : LiquidityZones
  atr : Option ℚ
  vwap : Option ℚ
deriving DecidableEq, Repr

/-- JS truthiness of a nullable number: `null`, `0` (and `NaN`, which has
no rational counterpart) are falsy. -/
def truthyQ : Option ℚ → Bool
  | none => false
  | some x => x != 0

/-- `arr[arr.length - 1] || null`: the last element of a number array with
a falsy value (absent or zero) coerced to `null`. -/
def jsLastOrNull (l : List ℚ) : Option ℚ :=
  match l.getLast? with
  | none => none
  | some v => if v = 0 then none else some v

namespace SMCIndicators

/-- `SMCIndicators.sma`: windowed average of `data` over `period`. -/
def sma (data : List ℚ) (period : ℕ) : List ℚ :=
  (List.range (data.length - (period - 1))).map fun k =>
    (((data.drop k).take period).sum) / period

/-- Tail of `SMCIndicators.ema`: the loop
`ema = (data[i] - ema) * multiplier + ema` over the remaining data. -/
def emaAux (multiplier : ℚ) : ℚ → List ℚ → List ℚ
  | _, [] => []
  | e, x :: xs =>
    let e' := (x - e) * multiplier + e
    e' :: emaAux multiplier e' xs

/-- `SMCIndicators.ema`: exponential moving average, seeded with the plain
average of the first `period` values. -/
def ema (data : List ℚ) (period : ℕ) : List ℚ :=
  let multiplier : ℚ := 2 / (period + 1)
  let seed : ℚ := ((data.take period).sum) / period
  seed :: emaAux multiplier seed (data.drop period)

/-- The body of the `SMCIndicators.rsi` loop at index `i`
(`period ≤ i < closes.length`): the 14-value slice `closes.slice(i - period, i)`,
its consecutive differences split into gains and losses, the Wilder
average-gain/average-loss ratio, with the zero-average-loss guard. -/
def rsiStep (closes : List ℚ) (period : ℕ) (i : ℕ) : ℚ :=
  let slice := (closes.drop (i - period)).take period
  let diffs := List.zipWith (fun a b => a - b) slice.tail slice
  let gains := diffs.map fun d => if d ≥ 0 then d else 0
  let losses := diffs.map fun d => if d ≥ 0 then 0 else |d|
  let avgGain := gains.sum / period
  let avgLoss := losses.sum / period
  if avgLoss = 0 then 100
  else
    let rs := avgGain / avgLoss
    100 - 100 / (1 + rs)

/-- `SMCIndicators.rsi`: one value per index `i ∈ [period, closes.length)`. -/
def rsi (candles : List Candle) (period : ℕ) : List ℚ :=
  let closes := candles.map Candle.close
  (List.range (closes.length - period)).map fun k => rsiStep closes period (k + period)

/-- The true range of a single candle as computed by `SMCIndicators.atr`:
`Math.max(high - low, |high - close|, |low - close|)` — note that the
source uses the candle's **own** close, not the previous candle's. -/
def trueRange (c : Candle) : ℚ :=
  max (c.high - c.low) (max |c.high - c.close| |c.low - c.close|)

/-- The `SMCIndicators.atr` value at loop index `i` (`period - 1 ≤ i`):
the mean of `trueRange` over `candles[i - period + 1 .. i]`. -/
def atrAt (candles : List Candle) (period : ℕ) (i : ℕ) : ℚ :=
  (((List.range' (i + 1 - period) period).map fun j => trueRange (getC candles j)).sum) / period

/-- `SMCIndicators.atr`: one value per index `i ∈ [period - 1, candles.length)`. -/
def atr (candles : List Candle) (period : ℕ) : List ℚ :=
  (List.range (candles.length - (period - 1))).map fun k => atrAt candles period (period - 1 + k)

/-- The cumulative state of the `SMCIndicators.vwap` loop:
`(cumVolPrice, cumVol, output so far)`, consumed left to right. -/
def vwapAux : ℚ → ℚ → List Candle → List ℚ
  | _, _, [] => []
  | cumVolPrice, cumVol, c :: cs =>
    let typicalPrice := (c.high + c.low + c.close) / 3
    let cumVolPrice' := cumVolPrice + typicalPrice * c.volume
    let cumVol' := cumVol + c.volume
    (cumVolPrice' / cumVol') :: vwapAux cumVolPrice' cumVol' cs

/-- `SMCIndicators.vwap`: cumulative typical-price VWAP from the start of
the sequence. -/
def vwap (candles : List Candle) : List ℚ :=
  vwapAux 0 0 candles

/-- `SMCIndicators.detectOrderBlocks`: scans `i ∈ [lookback, length - 2)`;
a strong bearish candle followed by two bullish closes is a bull block,
the sign-flipped mirror a bear block (the two conditions are mutually
exclusive because they require `close < open` and `close > open`). -/
def detectOrderBlocks (candles : List Candle) (lookback : ℕ) : List OrderBlock :=
  (List.range' lookback (candles.length - 2 - lookback)).filterMap fun i =>
    let candle := getC candles i
    let nextCandle := getC candles (i + 1)
    let nextNextCandle := getC candles (i + 2)
    let bodySize := |candle.close - candle.open_|
    let avgBody := ((((candles.drop (i - lookback)).take lookback).map
      fun c => |c.close - c.open_|).sum) / lookback
    if candle.close < candle.open_ ∧ bodySize > avgBody * (3/2) ∧
        nextCandle.close > nextCandle.open_ ∧ nextNextCandle.close > nextNextCandle.open_ then
      some ⟨i, candle.timestamp, candle.open_, candle.high, candle.low, candle.close,
        Dir.up, bodySize / avgBody⟩
    else if candle.close > candle.open_ ∧ bodySize > avgBody * (3/2) ∧
        nextCandle.close < nextCandle.open_ ∧ nextNextCandle.close < nextNextCandle.open_ then
      some ⟨i, candle.timestamp, candle.open_, candle.high, candle.low, candle.close,
        Dir.down, bodySize / avgBody⟩
    else none

/-- `SMCIndicators.detectFVG`: for each interior index, a bullish gap when
the previous high is strictly below the next low, a bearish gap when the
previous low is strictly above the next high (both can be emitted). -/
def detectFVG (candles : List Candle) : List FVG :=
  (List.range' 1 (candles.length - 2)).flatMap fun i =>
    let prev := getC candles (i - 1)
    let next := getC candles (i + 1)
    (if prev.high < next.low then
      [⟨i, prev.high, next.low, Dir.up, next.low - prev.high⟩]
     else []) ++
    (if prev.low > next.high then
      [⟨i, next.high, prev.low, Dir.down, prev.low - next.high⟩]
     else [])

/-- `SMCIndicators.detectLiquidity`: swing highs and lows over a symmetric
window of `swingPeriod` candles each side (ties qualify). -/
def detectLiquidity (candles : List Candle) (swingPeriod : ℕ) : LiquidityZones :=
  let idx := List.range' swingPeriod (candles.length - swingPeriod - swingPeriod)
  let highs := idx.filterMap fun i =>
    if (((candles.drop (i - swingPeriod)).take (swingPeriod + swingPeriod + 1)).all
        fun c => c.high ≤ (getC candles i).high) then
      some ⟨(getC candles i).high, 0, i⟩
    else none
  let lows := idx.filterMap fun i =>
    if (((candles.drop (i - swingPeriod)).take (swingPeriod + swingPeriod + 1)).all
        fun c => c.low ≥ (getC candles i).low) then
      some ⟨(getC candles i).low, 0, i⟩
    else none
  ⟨highs, lows⟩

/-- `SMCIndicators.getTrend`: SMA(50) vs SMA(200) of the closes; `null`
below 200 candles or on exact equality. -/
def getTrend (candles : List Candle) : Option Dir :=
  if candles.length < 200 then none
  else
    let closes := candles.map Candle.close
    let sma50 := sma closes 50
    let sma200 := sma closes 200
    let lastSMA50 := (sma50.getLast?).getD 0
    let lastSMA200 := (sma200.getLast?).getD 0
    if lastSMA50 > lastSMA200 then some Dir.up
    else if lastSMA50 < lastSMA200 then some Dir.down
    else none

/-- `SMCIndicators.getBOS`: sign of the last one-bar delta of SMA(50);
`null` below 50 candles.  When the SMA list has fewer than 2 entries the
JS index `sma50[sma50.length - 2]` is `undefined` and both comparisons are
false, so the result is `null`; we model that with the length guard. -/
def getBOS (candles : List Candle) : Option Dir :=
  if candles.length < 50 then none
  else
    let closes := candles.map Candle.close
    let sma50 := sma closes 50
    if sma50.length < 2 then none
    else
      let prevSMA50 := (sma50.get? (sma50.length - 2)).getD 0
      let lastSMA50 := (sma50.getLast?).getD 0
      if lastSMA50 > prevSMA50 then some Dir.up
      else if lastSMA50 < prevSMA50 then some Dir.down
      else none

/-- `SMCIndicators.analyze`: the full analysis snapshot.  Each numeric
series field is read off with `arr[arr.length - 1] || null`, so an empty
series or a latest value of exactly `0` becomes `null`. -/
def analyze (candles : List Candle) : SMCAnalysis :=
  let closes := candles.map Candle.close
  let ema50Arr := ema closes 50
  let ema200Arr := ema closes 200
  let rsiArr := rsi candles 14
  let atrArr := atr candles 14
  let vwapArr := vwap candles
  { trend := getTrend candles
    bos := getBOS candles
    ema50 := jsLastOrNull ema50Arr
    ema200 := jsLastOrNull ema200Arr
    rsi := jsLastOrNull rsiArr
    orderBlocks := detectOrderBlocks candles 10
    fvg := detectFVG candles
    liquidityZones := detectLiquidity candles 5
    atr := jsLastOrNull atrArr
    vwap := jsLastOrNull vwapArr }

end SMCIndicators

/-- Directional bias of the unified scorer (`'bullish' | 'bearish' | 'neutral'`). -/
inductive Bias where
  | bullish
  | bearish
  | neutral
deriving DecidableEq, Repr

/-- Weight configuration (interface `SMCWeights`). -/
structure SMCWeights where
  trend_structure : ℚ
  order_blocks : ℚ
  fvgs : ℚ
  ema_alignment : ℚ
  liquidity : ℚ
  mtf_bonus : ℚ
  rsi_penalty : ℚ
deriving DecidableEq, Repr

/-- The `breakdown` record built by `UnifiedScoring.calculateConfluence`,
with its seven named slots. -/
structure ScoreBreakdown where
  trend_structure : ℚ
  order_blocks : ℚ
  fvgs : ℚ
  ema_alignment : ℚ
  liquidity : ℚ
  mtf_bonus : ℚ
  rsi_penalty : ℚ
deriving DecidableEq, Repr

/-- Result of `UnifiedScoring.calculateConfluence` (interface
`UnifiedScore`; the human-readable `confluence` string list is
presentational and omitted). -/
structure UnifiedScore where
  score : ℚ
  breakdown : ScoreBreakdown
  bias : Bias
  macroScore : ℚ
deriving DecidableEq, Repr

namespace UnifiedScoring

/-- `UnifiedScoring.calculateConfluence`: bias resolution followed by the
seven weighted contributions.  Floating-point literals `0.95`, `1.05`,
`0.05`, `0.98`, `1.02`, `0.03`, `0.5`, `0.3`, `0.6` are idealized as the
exact rationals they denote. -/
def calculateConfluence (analysis : SMCAnalysis) (currentPrice : ℚ)
    (weights : SMCWeights) : UnifiedScore :=
  let bias : Bias :=
    if analysis.trend = some Dir.up ∧ analysis.bos = some Dir.up then .bullish
    else if analysis.trend = some Dir.down ∧ analysis.bos = some Dir.down then .bearish
    else if analysis.trend = some Dir.up ∨ analysis.bos = some Dir.up then .bullish
    else if analysis.trend = some Dir.down ∨ analysis.bos = some Dir.down then .bearish
    else .neutral
  -- TREND + STRUCTURE ALIGNMENT (0-40 pts)
  let trend_structure : ℚ :=
    if analysis.trend.isSome ∧ analysis.bos.isSome ∧ analysis.trend = analysis.bos then
      weights.trend_structure
    else if analysis.trend.isSome then weights.trend_structure * (1/2)
    else if analysis.bos.isSome then weights.trend_structure * (3/10)
    else 0
  -- DIRECTIONAL ORDER BLOCKS (0-30 pts)
  let relevantOBs := analysis.orderBlocks.filter fun ob =>
    let obHigh := max ob.open_ ob.close
    let obLow := min ob.open_ ob.close
    decide (currentPrice ≥ obLow * (95/100) ∧ currentPrice ≤ obHigh * (105/100))
  let bullOBs := relevantOBs.filter fun ob => ob.type = Dir.up
  let bearOBs := relevantOBs.filter fun ob => ob.type = Dir.down
  let order_blocks : ℚ :=
    if bias = Bias.bullish ∧ bullOBs.length > 0 then
      let nearOB := bullOBs.any fun ob =>
        let obLow := min ob.open_ ob.close
        decide (|currentPrice - obLow| / currentPrice < 5/100)
      if nearOB then weights.order_blocks else weights.order_blocks * (6/10)
    else if bias = Bias.bearish ∧ bearOBs.length > 0 then
      let nearOB := bearOBs.any fun ob =>
        let obHigh := max ob.open_ ob.close
        decide (|currentPrice - obHigh| / currentPrice < 5/100)
      if nearOB then weights.order_blocks else weights.order_blocks * (6/10)
    else if relevantOBs.length > 0 then weights.order_blocks * (3/10)
    else 0
  -- DIRECTIONAL FVGs (0-20 pts)
  let relevantFVGs := analysis.fvg.filter fun fvg =>
    decide (currentPrice ≥ fvg.from_ * (98/100) ∧ currentPrice ≤ fvg.to_ * (102/100))
  let bullFVGs := relevantFVGs.filter fun fvg => fvg.type = Dir.up
  let bearFVGs := relevantFVGs.filter fun fvg => fvg.type = Dir.down
  let fvgs : ℚ :=
    if bias = Bias.bullish ∧ bullFVGs.length > 0 then
      let nearFVG := bullFVGs.any fun fvg =>
        decide (|currentPrice - fvg.from_| / currentPrice < 3/100)
      if nearFVG then weights.fvgs else weights.fvgs * (1/2)
    else if bias = Bias.bearish ∧ bearFVGs.length > 0 then
      let nearFVG := bearFVGs.any fun fvg =>
        decide (|currentPrice - fvg.to_| / currentPrice < 3/100)
      if nearFVG then weights.fvgs else weights.fvgs * (1/2)
    else if relevantFVGs.length > 0 then weights.fvgs
    else 0
  -- EMA ALIGNMENT (0-15 pts); a zero EMA value is falsy in JS
  let ema_alignment : ℚ :=
    if truthyQ analysis.ema50 ∧ truthyQ analysis.ema200 then
      let emaTrend : Bias :=
        if analysis.ema50.getD 0 > analysis.ema200.getD 0 then .bullish else .bearish
      if (bias = Bias.bullish ∧ emaTrend = Bias.bullish) ∨
          (bias = Bias.bearish ∧ emaTrend = Bias.bearish) then
        weights.ema_alignment
      else -5
    else 0
  -- LIQUIDITY LEVELS (0-10 pts)
  let liquidity : ℚ :=
    if analysis.liquidityZones.highs.length > 0 ∨ analysis.liquidityZones.lows.length > 0 then
      weights.liquidity
    else 0
  -- MTF BONUS (0-35 pts) - added unconditionally by this layer
  let mtf_bonus : ℚ := weights.mtf_bonus
  -- RSI PENALTIES/BONUSES; a zero RSI value is falsy in JS
  let rsi_penalty : ℚ :=
    if truthyQ analysis.rsi then
      let r := analysis.rsi.getD 0
      if r > 70 then weights.rsi_penalty
      else if r < 30 then
        if bias = Bias.bullish then weights.rsi_penalty * (1/2) else weights.rsi_penalty
      else if r ≥ 40 ∧ r ≤ 60 then 5
      else 0
    else 0
  let totalScore := trend_structure + order_blocks + fvgs + ema_alignment +
    liquidity + mtf_bonus + rsi_penalty
  { score := max 0 totalScore
    breakdown := ⟨trend_structure, order_blocks, fvgs, ema_alignment, liquidity,
      mtf_bonus, rsi_penalty⟩
    bias := bias
    macroScore := 0 }

end UnifiedScoring

/-- Trend label used by the feature extractor (`'up' | 'down' | 'neutral'`). -/
inductive Trend3 where
  | up
  | down
  | neutral
deriving DecidableEq, Repr

namespace FeatureExtractor

/-- `FeatureExtractor.getTrendForPeriod`: percent change of the close over
the trailing `period` candles, with a ±0.5% neutral deadband. -/
def getTrendForPeriod (candles : List Candle) (period : ℕ) : Trend3 :=
  if candles.length < period then .neutral
  else
    let recentCandles := candles.drop (candles.length - period)
    let firstPrice := (getC recentCandles 0).close
    let lastPrice := (getC recentCandles (recentCandles.length - 1)).close
    let percentChange := (lastPrice - firstPrice) / firstPrice * 100
    if percentChange > 1/2 then .up
    else if percentChange < -(1/2) then .down
    else .neutral

/-- `FeatureExtractor.checkMTFAlignment`: trends over the 20/50/100
trailing windows, at least 2 of 3 compatible with the trade direction;
returns `true` outright below 50 historical candles.  The
`trend_direction` and `currentCandle` parameters are unused in the
source body and are kept for signature fidelity. -/
def checkMTFAlignment (trend_direction : Trend3) (direction : String)
    (currentCandle : Candle) (historicalCandles : List Candle) : Bool :=
  if historicalCandles.length < 50 then true
  else
    let shortTermTrend := getTrendForPeriod historicalCandles 20
    let mediumTermTrend := getTrendForPeriod historicalCandles 50
    let longTermTrend := getTrendForPeriod historicalCandles 100
    let isLong := direction = "long"
    if isLong then
      let shortAligned : Bool := decide (shortTermTrend = .up ∨ shortTermTrend = .neutral)
      let mediumAligned : Bool := decide (mediumTermTrend = .up ∨ mediumTermTrend = .neutral)
      let longAligned : Bool := decide (longTermTrend = .up ∨ longTermTrend = .neutral)
      decide (([shortAligned, mediumAligned, longAligned].filter id).length ≥ 2)
    else
      let shortAligned : Bool := decide (shortTermTrend = .down ∨ shortTermTrend = .neutral)
      let mediumAligned : Bool := decide (mediumTermTrend = .down ∨ mediumTermTrend = .neutral)
      let longAligned : Bool := decide (longTermTrend = .down ∨ longTermTrend = .neutral)
      decide (([shortAligned, mediumAligned, longAligned].filter id).length ≥ 2)

end FeatureExtractor

/-- Result record of `BacktestLearnLoop.simulateTrade`. -/
structure TradeSimResult where
  pnl : ℚ
  pnl_percent : ℚ
  outcome : String
  exit_reason : String
  holding_periods : ℕ
deriving DecidableEq, Repr

namespace BacktestLearnLoop

/-- Does `candle` at scan position trigger one of the four exit checks of
`BacktestLearnLoop.simulateTrade` (stop-loss checks listed before
take-profit checks)? -/
def touchesLevels (candle : Candle) (isLong : Bool) (stopLoss tp2 : ℚ) : Bool :=
  (if isLong then decide (candle.low ≤ stopLoss) else decide (candle.high ≥ stopLoss)) ||
  (if isLong then decide (candle.high ≥ tp2) else decide (candle.low ≤ tp2))

/-- The exit price determined by the forward scan of
`BacktestLearnLoop.simulateTrade`: starting from
`exitPrice = candles[startIndex].close`, scan
`i ∈ [startIndex + 1, min(startIndex + 100, candles.length))` and break at
the first touch, with stop-loss checked before take-profit on each candle. -/
def simExitPrice (candles : List Candle) (startIndex : ℕ) (isLong : Bool)
    (stopLoss tp2 : ℚ) : ℚ :=
  let scanned := List.range' (startIndex + 1)
    (min (startIndex + 100) candles.length - (startIndex + 1))
  match scanned.find? (fun i => touchesLevels (getC candles i) isLong stopLoss tp2) with
  | some i =>
    let candle := getC candles i
    if (if isLong then decide (candle.low ≤ stopLoss) else decide (candle.high ≥ stopLoss)) then
      stopLoss
    else tp2
  | none => (getC candles startIndex).close

/-- `analysis.atr || (candles[startIndex].high - candles[startIndex].low)`:
the ATR with the entry candle's range as fallback when the ATR is `null`
or `0` (both falsy in JS). -/
def tradeAtr (candles : List Candle) (startIndex : ℕ) (analysisAtr : Option ℚ) : ℚ :=
  let fallback := (getC candles startIndex).high - (getC candles startIndex).low
  match analysisAtr with
  | some a => if a = 0 then fallback else a
  | none => fallback

/-- The stop-loss level: entry ∓ 2×ATR, direction-sensitive. -/
def tradeStopLoss (entryPrice atr : ℚ) (isLong : Bool) : ℚ :=
  if isLong then entryPrice - atr * 2 else entryPrice + atr * 2

/-- The take-profit level `tp2`: entry ± 3×(entry-to-stop distance). -/
def tradeTp2 (entryPrice stopLoss : ℚ) (isLong : Bool) : ℚ :=
  let riskDistance := |entryPrice - stopLoss|
  if isLong then entryPrice + riskDistance * 3 else entryPrice - riskDistance * 3

/-- `BacktestLearnLoop.simulateTrade`: stop at entry ∓ 2×ATR, target at
entry ± 3×risk, forward scan of up to 100 candles, P&L on a fixed 1000
notional. -/
def simulateTrade (candles : List Candle) (startIndex : ℕ) (entryPrice : ℚ)
    (direction : String) (analysisAtr : Option ℚ) : TradeSimResult :=
  let isLong : Bool := decide (direction = "long")
  let atr := tradeAtr candles startIndex analysisAtr
  let stopLoss := tradeStopLoss entryPrice atr isLong
  let tp2 := tradeTp2 entryPrice stopLoss isLong
  let exitPrice := simExitPrice candles startIndex isLong stopLoss tp2
  let priceDiff := if isLong then exitPrice - entryPrice else entryPrice - exitPrice
  let pnl := 1000 * (priceDiff / entryPrice)
  { pnl := pnl
    pnl_percent := priceDiff / entryPrice * 100
    outcome := if pnl > 0 then "WIN" else "LOSS"
    exit_reason := if exitPrice = stopLoss then "SL" else "TP"
    holding_periods := 0 }

/-- One audit-trail record of the learning loop (interface `LoopIteration`). -/
structure LoopIterationRec where
  iteration : ℕ
  tradesExtracted : ℕ
  trainAccuracy : ℚ
  testAccuracy : ℚ
  predictionErrors : ℕ
  improvementFromLast : ℚ
deriving DecidableEq, Repr

/-- Loop configuration slots of `CONFIG` used by `BacktestLearnLoop.run`. -/
structure LoopConfig where
  maxIterations : ℕ
  minAccuracyImprovement : ℚ
  errorEmphasisMultiplier : ℕ
deriving DecidableEq, Repr

/-- The iteration phase of `BacktestLearnLoop.run`, generic in the trade
record type `α`.  The shuffle/split/train/evaluate step of one iteration
draws on `Math.random` and on the model, so it is abstracted as the oracle
`evalIter i pool = (trainAccuracy, testAccuracy, errors)`; the control
flow around it — the convergence break before the error-emphasis append,
the `i < maxIterations` guard on the append, and the audit trail — is
modelled exactly.  `fuel` counts the remaining iterations
(`maxIterations - i + 1`). -/
def runLoopFrom (cfg : LoopConfig) (evalIter : ℕ → List α → ℚ × ℚ × List α) :
    ℕ → ℕ → ℚ → List α → List LoopIterationRec → List LoopIterationRec × List α
  | 0, _, _, trainingData, recs => (recs, trainingData)
  | fuel + 1, i, lastAccuracy, trainingData, recs =>
    let res := evalIter i trainingData
    let trainAccuracy := res.1
    let testAccuracy := res.2.1
    let errors := res.2.2
    let improvement := testAccuracy - lastAccuracy
    let recs' := recs ++
      [⟨i, trainingData.length, trainAccuracy, testAccuracy, errors.length, improvement⟩]
    if 1 < i ∧ improvement < cfg.minAccuracyImprovement then
      (recs', trainingData)
    else
      let trainingData' :=
        if i < cfg.maxIterations then
          trainingData ++ (List.replicate (cfg.errorEmphasisMultiplier - 1) errors).flatten
        else trainingData
      runLoopFrom cfg evalIter fuel (i + 1) testAccuracy trainingData' recs'

/-- The full iteration phase: `for i = 1 to maxIterations`, starting with
`lastAccuracy = 0` and an empty audit trail. -/
def runLoop (cfg : LoopConfig) (evalIter : ℕ → List α → ℚ × ℚ × List α)
    (initialPool : List α) : List LoopIterationRec × List α :=
  runLoopFrom cfg evalIter cfg.maxIterations 1 0 initialPool []

end BacktestLearnLoop

/-- A runtime JS value held in a `TradeFeatures` field: a number, a string
enum, or a boolean. -/
inductive FVal where
  | num (q : ℚ)
  | str (s : String)
  | bool (b : Bool)
deriving DecidableEq, Repr

/-- `as number` cast on a feature value.  `binFeature` is invoked only on
numeric feature names, so only the `num` arm is ever reached; the other
arms follow the JS numeric coercion for booleans and return `0` for
strings (JS would produce `NaN`, which has no rational counterpart). -/
def FVal.asNum : FVal → ℚ
  | .num q => q
  | .bool b => if b then 1 else 0
  | .str _ => 0

/-- The flat feature record (interface `TradeFeatures` in
`trade-features`), numbers as `ℚ`, enums as strings. -/
structure TradeFeatures where
  entry_price : ℚ
  entry_time : ℚ
  direction : String
  trend_direction : String
  trend_strength : ℚ
  trend_bos_aligned : Bool
  ob_near : Bool
  ob_distance : ℚ
  ob_type : String
  ob_size : ℚ
  ob_age : ℚ
  fvg_near : Bool
  fvg_count : ℚ
  fvg_nearest_distance : ℚ
  fvg_size : ℚ
  fvg_type : String
  ema_aligned : Bool
  ema_trend : String
  rsi_value : ℚ
  rsi_state : String
  liquidity_near : Bool
  liquidity_count : ℚ
  mtf_aligned : Bool
  volatility : ℚ
  atr_value : ℚ
  price_position : ℚ
  distance_to_high : ℚ
  distance_to_low : ℚ
  volume_spike : Bool
  volume_ratio : ℚ
  confluence_score : ℚ
  confluence_count : ℚ
  session : String
  days_since_loss : ℚ
  streak_type : String
  potential_rr : ℚ
  outcome : String
  pnl : ℚ
  pnl_percent : ℚ
  exit_reason : String
  holding_periods : ℚ

/-- The dynamic field access `t[name as keyof TradeFeatures]` as an
explicit name→value table.  Unknown names (never produced by `train`)
yield `undefined` in JS; the catch-all arm is unreachable from the model
code. -/
def getFVal (t : TradeFeatures) : String → FVal
  | "entry_price" => .num t.entry_price
  | "entry_time" => .num t.entry_time
  | "direction" => .str t.direction
  | "trend_direction" => .str t.trend_direction
  | "trend_strength" => .num t.trend_strength
  | "trend_bos_aligned" => .bool t.trend_bos_aligned
  | "ob_near" => .bool t.ob_near
  | "ob_distance" => .num t.ob_distance
  | "ob_type" => .str t.ob_type
  | "ob_size" => .num t.ob_size
  | "ob_age" => .num t.ob_age
  | "fvg_near" => .bool t.fvg_near
  | "fvg_count" => .num t.fvg_count
  | "fvg_nearest_distance" => .num t.fvg_nearest_distance
  | "fvg_size" => .num t.fvg_size
  | "fvg_type" => .str t.fvg_type
  | "ema_aligned" => .bool t.ema_aligned
  | "ema_trend" => .str t.ema_trend
  | "rsi_value" => .num t.rsi_value
  | "rsi_state" => .str t.rsi_state
  | "liquidity_near" => .bool t.liquidity_near
  | "liquidity_count" => .num t.liquidity_count
  | "mtf_aligned" => .bool t.mtf_aligned
  | "volatility" => .num t.volatility
  | "atr_value" => .num t.atr_value
  | "price_position" => .num t.price_position
  | "distance_to_high" => .num t.distance_to_high
  | "distance_to_low" => .num t.distance_to_low
  | "volume_spike" => .bool t.volume_spike
  | "volume_ratio" => .num t.volume_ratio
  | "confluence_score" => .num t.confluence_score
  | "confluence_count" => .num t.confluence_count
  | "session" => .str t.session
  | "days_since_loss" => .num t.days_since_loss
  | "streak_type" => .str t.streak_type
  | "potential_rr" => .num t.potential_rr
  | "outcome" => .str t.outcome
  | "pnl" => .num t.pnl
  | "pnl_percent" => .num t.pnl_percent
  | "exit_reason" => .str t.exit_reason
  | "holding_periods" => .num t.holding_periods
  | _ => .str ""

/-- One histogram bin (interface `FeatureBin`); `value` is the optional
stored categorical value. -/
structure FeatureBin where
  min : ℚ
  max : ℚ
  count : ℕ
  wins : ℕ
  winRate : ℚ
  value : Option FVal
deriving DecidableEq, Repr

/-- One trained feature (interface `ModelFeature`). -/
structure ModelFeature where
  name : String
  bins : List FeatureBin
  importance : ℚ
deriving DecidableEq, Repr

/-- The mutable state of class `TradingMLModel`: the insertion-ordered
feature map, the minimum sample size, and the trained flag. -/
structure TradingMLModel where
  features : List (String × ModelFeature)
  minSampleSize : ℕ
  trained : Bool
deriving DecidableEq, Repr

/-- A freshly constructed `TradingMLModel` (`features` empty,
`minSampleSize = 30`, `trained = false`). -/
def TradingMLModel.new : TradingMLModel := ⟨[], 30, false⟩

/-- `Math.min(...values)` over a non-empty list; the empty case (JS
`Infinity`) is only reached for an empty training corpus and is given an
arbitrary value. -/
def listMin : List ℚ → ℚ
  | [] => 0
  | x :: xs => xs.foldl min x

/-- `Math.max(...values)` over a non-empty list (empty case as in
`listMin`). -/
def listMax : List ℚ → ℚ
  | [] => 0
  | x :: xs => xs.foldl max x

/-- The numeric bin-membership test used by both `binFeature`'s training
filter and `predict`'s bin lookup: `val >= bin.min && val < bin.max`
(strict upper bound on **every** bin, the last included). -/
def inBin (v : ℚ) (b : FeatureBin) : Bool :=
  decide (v ≥ b.min) && decide (v < b.max)

namespace TradingMLModel

/-- `trades.map(t => t[featureName as keyof TradeFeatures] as number)`:
the observed values of a numeric feature across the corpus. -/
def featureValues (featureName : String) (trades : List TradeFeatures) : List ℚ :=
  trades.map fun t => (getFVal t featureName).asNum

/-- `TradingMLModel.binFeature`: equal-width bins `[binMin, binMax)` over
the observed `[min, max]` of a numeric feature, with per-bin counts, wins
and win rate (`0` for an empty bin). -/
def binFeature (featureName : String) (trades : List TradeFeatures) (numBins : ℕ) :
    ModelFeature :=
  let values := featureValues featureName trades
  let minVal := listMin values
  let maxVal := listMax values
  let binSize := (maxVal - minVal) / numBins
  let bins := (List.range numBins).map fun i : ℕ =>
    let binMin := minVal + (i : ℚ) * binSize
    let binMax := minVal + ((i : ℚ) + 1) * binSize
    let tradesInBin := trades.filter fun t =>
      let val := (getFVal t featureName).asNum
      decide (val ≥ binMin) && decide (val < binMax)
    let wins := (tradesInBin.filter fun t => t.outcome == "WIN").length
    { min := binMin
      max := binMax
      count := tradesInBin.length
      wins := wins
      winRate := if tradesInBin.length > 0 then (wins : ℚ) / tradesInBin.length else 0
      value := none }
  ⟨featureName, bins, 0⟩

/-- First-occurrence-order deduplication, matching iteration order of a
JS `Set` built from a list. -/
def insertionDedup (l : List FVal) : List FVal :=
  l.foldl (fun acc v => if v ∈ acc then acc else acc ++ [v]) []

/-- `TradingMLModel.binCategorical`: one bin per distinct observed value,
`min = max = 0`, the value stored for equality matching. -/
def binCategorical (featureName : String) (trades : List TradeFeatures) : ModelFeature :=
  let uniqueValues := insertionDedup (trades.map fun t => getFVal t featureName)
  let bins := uniqueValues.map fun value =>
    let tradesWithValue := trades.filter fun t => getFVal t featureName == value
    let wins := (tradesWithValue.filter fun t => t.outcome == "WIN").length
    { min := 0
      max := 0
      count := tradesWithValue.length
      wins := wins
      winRate := if tradesWithValue.length > 0 then (wins : ℚ) / tradesWithValue.length else 0
      value := some value }
  ⟨featureName, bins, 0⟩

/-- The per-feature body of `TradingMLModel.calculateFeatureImportance`:
population variance of win rates across bins with `count ≥ minSampleSize`,
scaled by 10 and clamped to 1; `0` with fewer than 2 qualifying bins. -/
def setImportance (minSample : ℕ) (f : ModelFeature) : ModelFeature :=
  let winRates := (f.bins.filter fun b => decide (b.count ≥ minSample)).map FeatureBin.winRate
  if winRates.length < 2 then { f with importance := 0 }
  else
    let mean := winRates.sum / (winRates.length : ℚ)
    let variance := ((winRates.map fun r => (r - mean) ^ 2).sum) / (winRates.length : ℚ)
    { f with importance := min (variance * 10) 1 }

/-- The numeric feature names binned by `train`, in call order. -/
def numericFeatureNames : List String :=
  ["trend_strength", "ob_distance", "ob_size", "ob_age", "fvg_nearest_distance",
   "fvg_size", "fvg_count", "volatility", "rsi_value", "atr_value",
   "price_position", "distance_to_high", "distance_to_low", "volume_ratio",
   "confluence_score", "potential_rr"]

/-- The categorical feature names binned by `train`, in call order. -/
def categoricalFeatureNames : List String :=
  ["trend_direction", "trend_bos_aligned", "ob_near", "ob_type", "fvg_near",
   "fvg_type", "ema_aligned", "ema_trend", "rsi_state", "liquidity_near",
   "mtf_aligned", "direction", "volume_spike", "session", "days_since_loss",
   "streak_type"]

/-- `TradingMLModel.train`: clears the feature map, bins the 16 numeric
features (10 bins each) and the 16 categorical features in source order,
computes every feature's importance, and sets the trained flag. -/
def train (m : TradingMLModel) (trades : List TradeFeatures) : TradingMLModel :=
  let feats := (numericFeatureNames.map fun n => (n, binFeature n trades 10)) ++
    (categoricalFeatureNames.map fun n => (n, binCategorical n trades))
  let feats := feats.map fun p => (p.1, setImportance m.minSampleSize p.2)
  { m with features := feats, trained := true }

/-- One scored feature of `predict` (`{feature, score, winRate}`). -/
structure WeightedScore where
  feature : String
  score : ℚ
  winRate : ℚ
deriving DecidableEq, Repr

/-- `predict`'s bin lookup: the first matching bin's `(winRate, count)`,
defaulting to `(0.5, 0)`.  A numeric query value uses the interval test,
any other value the stored-value equality test with `count > 0`. -/
def findBin (bins : List FeatureBin) (fv : FVal) : ℚ × ℕ :=
  match fv with
  | .num v =>
    match bins.find? (fun b => inBin v b) with
    | some b => (b.winRate, b.count)
    | none => (1/2, 0)
  | _ =>
    match bins.find? (fun b => decide (b.count > 0) && b.value == some fv) with
    | some b => (b.winRate, b.count)
    | none => (1/2, 0)

/-- The per-feature scoring loop of `predict`: score = bin win rate ×
feature importance × `min(bin count / minSampleSize, 1)`. -/
def scoreFeatures (m : TradingMLModel) (f : TradeFeatures) : List WeightedScore :=
  m.features.map fun p =>
    let featureValue := getFVal f p.1
    let found := findBin p.2.bins featureValue
    let sampleWeight := min ((found.2 : ℚ) / m.minSampleSize) 1
    ⟨p.1, found.1 * p.2.importance * sampleWeight, found.1⟩

/-- The top 10 scored features of `predict`, after the descending sort by
score.  JS `Array.prototype.sort` with comparator `b.score - a.score` is a
stable descending sort; it is modelled by a stable insertion sort. -/
def topFeatures (m : TradingMLModel) (f : TradeFeatures) : List WeightedScore :=
  letI : DecidableRel (fun a b : WeightedScore => b.score ≤ a.score) :=
    fun a b => inferInstanceAs (Decidable (b.score ≤ a.score))
  ((scoreFeatures m f).insertionSort (fun a b => b.score ≤ a.score)).take 10

/-- `predict`'s result (interface `Prediction`; the formatted `reason`
string is presentational and omitted). -/
structure Prediction where
  winProbability : ℚ
  confidence : ℚ
  keyFeatures : List String
deriving DecidableEq, Repr

/-- The error kinds of the model. -/
inductive MLError where
  | notTrained
deriving DecidableEq, Repr

/-- The successful branch of `predict`: aggregate the top 10 scored
features into a weighted win probability (default 0.5 on zero total
weight) and a sample-size-based confidence
`min(Σ min(score / winRate, 100) / 1000, 1)`. -/
def predictResult (m : TradingMLModel) (f : TradeFeatures) : Prediction :=
  let top := topFeatures m f
  let totalWeight := (top.map WeightedScore.score).sum
  let weightedSum := (top.map fun e => e.score * e.winRate).sum
  let winProbability := if totalWeight > 0 then weightedSum / totalWeight else 1/2
  let totalSamples := (top.map fun e => min (e.score / e.winRate) 100).sum
  let confidence := min (totalSamples / 1000) 1
  ⟨winProbability, confidence, (top.take 5).map WeightedScore.feature⟩

/-- `TradingMLModel.predict`: throws `NotTrained` on an untrained model,
otherwise returns `predictResult`. -/
def predict (m : TradingMLModel) (f : TradeFeatures) : Except MLError Prediction :=
  if !m.trained then .error .notTrained
  else .ok (predictResult m f)

end TradingMLModel

/-! ## Spec-modelled reference definitions -/

/-- Modelled from the spec: the true range as the spec's §4.1 ATR bullet
describes it — `max(high - low, |high - prevClose|, |low - prevClose|)`
with the **previous** candle's close (the first candle, having no
predecessor, uses its own range).  This is the claimed behaviour, kept
separate from the source's `trueRange` for comparison. -/
def specTrueRange (candles : List Candle) (j : ℕ) : ℚ :=
  let c := getC candles j
  if j = 0 then c.high - c.low
  else
    let prevClose := (getC candles (j - 1)).close
    max (c.high - c.low) (max |c.high - prevClose| |c.low - prevClose|)

/-- Modelled from the spec: the mean of `specTrueRange` over the trailing
`period`-bar window ending at index `i`. -/
def specATRAt (candles : List Candle) (period : ℕ) (i : ℕ) : ℚ :=
  (((List.range' (i + 1 - period) period).map fun j => specTrueRange candles j).sum) / period

/-- The 14-value close window inspected by the RSI loop at result index
`k` is monotonically non-decreasing (every consecutive difference is a
gain). -/
def windowAllGains (closes : List ℚ) (k : ℕ) : Prop :=
  List.Chain' (· ≤ ·) ((closes.drop k).take 14)

/-- The 14-value close window inspected by the RSI loop at result index
`k` is strictly decreasing (every consecutive difference is a loss). -/
def windowAllLosses (closes : List ℚ) (k : ℕ) : Prop :=
  List.Chain' (fun a b : ℚ => b < a) ((closes.drop k).take 14)

/-- Executable consecutive-pair check over a rational list. -/
def chainB (r : ℚ → ℚ → Bool) : List ℚ → Bool
  | [] => true
  | [_] => true
  | x :: y :: rest => r x y && chainB r (y :: rest)

lemma chainB_iff (r : ℚ → ℚ → Bool) :
    ∀ l : List ℚ, chainB r l = true ↔ List.Chain' (fun a b => r a b = true) l
  | [] => by simp [chainB]
  | [x] => by simp [chainB]
  | x :: y :: rest => by
    rw [chainB, List.chain'_cons, Bool.and_eq_true, chainB_iff r (y :: rest)]

instance (closes : List ℚ) (k : ℕ) : Decidable (windowAllGains closes k) :=
  decidable_of_iff (chainB (fun a b => decide (a ≤ b)) ((closes.drop k).take 14) = true) (by
    rw [chainB_iff]
    have he : (fun a b : ℚ => decide (a ≤ b) = true) = (fun a b : ℚ => a ≤ b) := by
      funext a b
      simp
    rw [he]
    exact Iff.rfl)

instance (closes : List ℚ) (k : ℕ) : Decidable (windowAllLosses closes k) :=
  decidable_of_iff (chainB (fun a b => decide (b < a)) ((closes.drop k).take 14) = true) (by
    rw [chainB_iff]
    have he : (fun a b : ℚ => decide (b < a) = true) = (fun a b : ℚ => b < a) := by
      funext a b
      simp
    rw [he]
    exact Iff.rfl)

/-! ## Concrete fixtures -/

/-- A fully populated feature record used as the base of concrete test
corpora. -/
def sampleTrade : TradeFeatures :=
  { entry_price := 100, entry_time := 0, direction := "long",
    trend_direction := "up", trend_strength := 0, trend_bos_aligned := true,
    ob_near := false, ob_distance := 1, ob_type := "none", ob_size := 0,
    ob_age := 0, fvg_near := false, fvg_count := 0, fvg_nearest_distance := 1,
    fvg_size := 0, fvg_type := "mixed", ema_aligned := false,
    ema_trend := "neutral", rsi_value := 50, rsi_state := "neutral",
    liquidity_near := false, liquidity_count := 0, mtf_aligned := true,
    volatility := 0, atr_value := 0, price_position := 1/2,
    distance_to_high := 0, distance_to_low := 0, volume_spike := false,
    volume_ratio := 1, confluence_score := 0, confluence_count := 0,
    session := "asian", days_since_loss := 0, streak_type := "none",
    potential_rr := 2, outcome := "WIN", pnl := 0, pnl_percent := 0,
    exit_reason := "TP", holding_periods := 0 }

/-- Two-record corpus whose `trend_strength` values are 0 and 10. -/
def c1Trades : List TradeFeatures :=
  [sampleTrade, { sampleTrade with trend_strength := 10, outcome := "LOSS" }]

/-- Two-record all-win corpus whose `trend_strength` values are 0 and 10. -/
def c10Trades : List TradeFeatures :=
  [sampleTrade, { sampleTrade with trend_strength := 10 }]

/-- 13 flat candles at price 10 followed by one candle with a large gap
from the previous close (high 20, low 19, close 19). -/
def c2Candles : List Candle :=
  List.replicate 13 ⟨0, 10, 10, 10, 10, 0⟩ ++ [⟨0, 19, 20, 19, 19, 0⟩]

/-- An entry candle closing at 100 followed by two candles that touch
neither 98 (the stop for ATR 1) nor 106 (the target); the last scanned
candle closes at 103. -/
def c3Candles : List Candle :=
  [⟨0, 100, 100, 100, 100, 0⟩, ⟨0, 100, 101, 99, 101, 0⟩, ⟨0, 101, 103, 99, 103, 0⟩]

/-- An analysis with every field unknown/empty. -/
def emptyAnalysis : SMCAnalysis :=
  ⟨none, none, none, none, none, [], [], ⟨[], []⟩, none, none⟩

/-- Trend and break-of-structure both known but disagreeing. -/
def c4DisagreeAnalysis : SMCAnalysis :=
  { emptyAnalysis with trend := some Dir.up, bos := some Dir.down }

/-- Trend and break-of-structure both known and agreeing. -/
def c4AgreeAnalysis : SMCAnalysis :=
  { emptyAnalysis with trend := some Dir.up, bos := some Dir.up }

/-- Only the trend known. -/
def c4TrendOnlyAnalysis : SMCAnalysis :=
  { emptyAnalysis with trend := some Dir.up }

/-- Only the break-of-structure known. -/
def c4BosOnlyAnalysis : SMCAnalysis :=
  { emptyAnalysis with bos := some Dir.down }

/-- The weight configuration used by `extractTradesForSymbol`. -/
def w40 : SMCWeights := ⟨40, 30, 20, 15, 10, 35, 15⟩

/-- The loop configuration slots of `CONFIG` at their defaults. -/
def c7Config : BacktestLearnLoop.LoopConfig := ⟨10, 5/1000, 3⟩

/-- A constant evaluation oracle: both accuracies 1/2, one misclassified
record. -/
def c7Eval : ℕ → List ℕ → ℚ × ℚ × List ℕ := fun _ _ => (1/2, 1/2, [7])

/-- 15 flat candles at price 10 (every consecutive close difference is
zero, an all-gains window). -/
def c6Candles : List Candle :=
  List.replicate 15 ⟨0, 10, 10, 10, 10, 0⟩

/-- 16 candles with strictly decreasing closes 100, 99, …, 85. -/
def c9Candles : List Candle :=
  (List.range 16).map fun i => ⟨0, 100 - (i : ℚ), 100 - (i : ℚ), 100 - (i : ℚ), 100 - (i : ℚ), 0⟩

/-! ## Helper lemmas -/

/-- JS index iteration over a window equals the corresponding slice. -/
lemma map_getC_eq_drop_take (candles : List Candle) :
    ∀ (n k : ℕ), k + n ≤ candles.length →
      (List.range' k n).map (getC candles) = (candles.drop k).take n := by
  intro n
  induction n with
  | zero => intro k _; simp
  | succ n ih =>
    intro k h
    have hk : k < candles.length := by omega
    have hgetC : getC candles k = candles[k] := by
      simp [getC, List.get?_eq_getElem?, List.getElem?_eq_getElem hk]
    rw [List.range'_succ, List.map_cons, hgetC, List.drop_eq_getElem_cons hk,
      List.take_succ_cons, ih (k + 1) (by omega)]

/-- Consecutive differences of a non-decreasing list are non-negative. -/
lemma chain_le_diffs_nonneg :
    ∀ (l : List ℚ), List.Chain' (· ≤ ·) l →
      ∀ d ∈ List.zipWith (fun a b => a - b) l.tail l, 0 ≤ d := by
  intro l
  induction l with
  | nil => intro _ d hd; simp at hd
  | cons x rest ih =>
    intro h d hd
    cases rest with
    | nil => simp at hd
    | cons y rest2 =>
      rw [List.chain'_cons] at h
      simp only [List.tail_cons, List.zipWith_cons_cons] at hd
      rcases List.mem_cons.mp hd with rfl | hd2
      · have := h.1
        linarith
      · exact ih h.2 d (by simpa using hd2)

/-- Consecutive differences of a strictly decreasing list are negative. -/
lemma chain_gt_diffs_neg :
    ∀ (l : List ℚ), List.Chain' (fun a b : ℚ => b < a) l →
      ∀ d ∈ List.zipWith (fun a b => a - b) l.tail l, d < 0 := by
  intro l
  induction l with
  | nil => intro _ d hd; simp at hd
  | cons x rest ih =>
    intro h d hd
    cases rest with
    | nil => simp at hd
    | cons y rest2 =>
      rw [List.chain'_cons] at h
      simp only [List.tail_cons, List.zipWith_cons_cons] at hd
      rcases List.mem_cons.mp hd with rfl | hd2
      · have := h.1
        linarith
      · exact ih h.2 d (by simpa using hd2)

/-- Every RSI loop value lies in [0, 100]. -/
lemma rsiStep_bounds (closes : List ℚ) (period : ℕ) (i : ℕ) :
    0 ≤ SMCIndicators.rsiStep closes period i ∧
      SMCIndicators.rsiStep closes period i ≤ 100 := by
  simp only [SMCIndicators.rsiStep]
  set slice := (closes.drop (i - period)).take period with hs
  set diffs := List.zipWith (fun a b => a - b) slice.tail slice with hdf
  have hG : 0 ≤ ((diffs.map fun d => if d ≥ 0 then d else 0).sum) / (period : ℚ) := by
    apply div_nonneg _ (Nat.cast_nonneg period)
    apply List.sum_nonneg
    intro x hx
    obtain ⟨d, _, rfl⟩ := List.mem_map.mp hx
    split
    · assumption
    · exact le_refl 0
  have hL : 0 ≤ ((diffs.map fun d => if d ≥ 0 then 0 else |d|).sum) / (period : ℚ) := by
    apply div_nonneg _ (Nat.cast_nonneg period)
    apply List.sum_nonneg
    intro x hx
    obtain ⟨d, _, rfl⟩ := List.mem_map.mp hx
    split
    · exact le_refl 0
    · exact abs_nonneg d
  split_ifs with h0
  · norm_num
  · have hLpos : 0 < ((diffs.map fun d => if d ≥ 0 then 0 else |d|).sum) / (period : ℚ) :=
      lt_of_le_of_ne hL (Ne.symm h0)
    set rs := (((diffs.map fun d => if d ≥ 0 then d else 0).sum) / (period : ℚ)) /
      (((diffs.map fun d => if d ≥ 0 then 0 else |d|).sum) / (period : ℚ)) with hrs
    have hrs0 : 0 ≤ rs := div_nonneg hG hLpos.le
    have hfrac : 0 < 100 / (1 + rs) := div_pos (by norm_num) (by linarith)
    have hfrac100 : 100 / (1 + rs) ≤ 100 := div_le_self (by norm_num) (by linarith)
    constructor <;> linarith

/-- An RSI window with no losing difference yields exactly 100. -/
lemma rsiStep_allGains (closes : List ℚ) (period i : ℕ)
    (h : List.Chain' (· ≤ ·) ((closes.drop (i - period)).take period)) :
    SMCIndicators.rsiStep closes period i = 100 := by
  simp only [SMCIndicators.rsiStep]
  have hzero : ((List.zipWith (fun a b => a - b)
      ((closes.drop (i - period)).take period).tail
      ((closes.drop (i - period)).take period)).map fun d => if d ≥ 0 then 0 else |d|).sum
      = 0 := by
    apply List.sum_eq_zero
    intro x hx
    obtain ⟨d, hdmem, rfl⟩ := List.mem_map.mp hx
    have hd := chain_le_diffs_nonneg _ h d hdmem
    simp [hd]
  rw [hzero]
  simp

/-- An RSI window (of at least two values) whose every difference is a
loss yields exactly 0. -/
lemma rsiStep_allLosses (closes : List ℚ) (period i : ℕ) (hp : 0 < period)
    (hlen : 2 ≤ ((closes.drop (i - period)).take period).length)
    (h : List.Chain' (fun a b : ℚ => b < a) ((closes.drop (i - period)).take period)) :
    SMCIndicators.rsiStep closes period i = 0 := by
  simp only [SMCIndicators.rsiStep]
  set slice := (closes.drop (i - period)).take period with hs
  set diffs := List.zipWith (fun a b => a - b) slice.tail slice with hdf
  have hneg := chain_gt_diffs_neg slice h
  have hgain0 : (diffs.map fun d => if d ≥ 0 then d else 0).sum = 0 := by
    apply List.sum_eq_zero
    intro x hx
    obtain ⟨d, hdmem, rfl⟩ := List.mem_map.mp hx
    have hd := hneg d hdmem
    simp [not_le.mpr hd]
  have hdlen : diffs.length = slice.length - 1 := by
    rw [hdf, List.length_zipWith, List.length_tail]
    omega
  have hdne : diffs ≠ [] := by
    have : 0 < diffs.length := by omega
    exact List.length_pos.mp this
  have hlosssum : 0 < (diffs.map fun d => if d ≥ 0 then 0 else |d|).sum := by
    apply List.sum_pos
    · intro x hx
      obtain ⟨d, hdmem, rfl⟩ := List.mem_map.mp hx
      have hd := hneg d hdmem
      rw [if_neg (not_le.mpr hd)]
      exact abs_pos.mpr (ne_of_lt hd)
    · simpa using hdne
  have havgloss : 0 < ((diffs.map fun d => if d ≥ 0 then 0 else |d|).sum) / (period : ℚ) :=
    div_pos hlosssum (by exact_mod_cast hp)
  rw [if_neg (ne_of_gt havgloss), hgain0]
  simp

/-- The RSI list value at index `k` is the loop body at `i = k + 14`. -/
lemma rsi_get? (candles : List Candle) (k : ℕ) (hk : k < candles.length - 14) :
    (SMCIndicators.rsi candles 14).get? k =
      some (SMCIndicators.rsiStep (candles.map Candle.close) 14 (k + 14)) := by
  simp only [SMCIndicators.rsi]
  rw [List.get?_map, List.get?_range (by simp only [List.length_map]; omega),
    Option.map_some']

/-- The RSI list has one value per index in `[14, length)`. -/
lemma rsi_length (candles : List Candle) :
    (SMCIndicators.rsi candles 14).length = candles.length - 14 := by
  simp [SMCIndicators.rsi]

/-- The `|| null` read of a series is `none` exactly when the series is
empty or its last value is 0. -/
lemma jsLastOrNull_eq_none (l : List ℚ) :
    jsLastOrNull l = none ↔ (l = [] ∨ l.getLast? = some 0) := by
  unfold jsLastOrNull
  cases hl : l.getLast? with
  | none => simp [List.getLast?_eq_none_iff.mp hl]
  | some v =>
    have hne : l ≠ [] := by
      intro h
      rw [h] at hl
      simp at hl
    by_cases hv : v = 0 <;> simp [hl, hv, hne]

/-- A left fold by `min` is at most its initial value. -/
lemma foldl_min_le_init : ∀ (xs : List ℚ) (a : ℚ), xs.foldl min a ≤ a := by
  intro xs
  induction xs with
  | nil => intro a; simp
  | cons x xs ih => intro a; exact le_trans (ih (min a x)) (min_le_left a x)

/-- A left fold by `min` is at most every list element. -/
lemma foldl_min_le_mem : ∀ (xs : List ℚ) (a v : ℚ), v ∈ xs → xs.foldl min a ≤ v := by
  intro xs
  induction xs with
  | nil => intro a v hv; cases hv
  | cons x xs ih =>
    intro a v hv
    rcases List.mem_cons.mp hv with rfl | hv2
    · exact le_trans (foldl_min_le_init xs (min a v)) (min_le_right a v)
    · exact ih (min a x) v hv2

/-- `Math.min(...values)` bounds every observed value from below. -/
lemma listMin_le (l : List ℚ) (v : ℚ) (hv : v ∈ l) : listMin l ≤ v := by
  cases l with
  | nil => cases hv
  | cons x xs =>
    rcases List.mem_cons.mp hv with rfl | hv2
    · exact foldl_min_le_init xs v
    · exact foldl_min_le_mem xs x v hv2

/-- A `(List.range n).countP` of an equality-with-`i0` test is 1 when
`i0 < n`. -/
lemma countP_eq_decide_range (n i0 : ℕ) (h : i0 < n) :
    (List.range n).countP (fun j => decide (j = i0)) = 1 := by
  induction n with
  | zero => omega
  | succ n ih =>
    rw [List.range_succ, List.countP_append]
    rcases Nat.lt_or_ge i0 n with h2 | h2
    · rw [ih h2]
      have hne : n ≠ i0 := by omega
      simp [hne]
    · have he : i0 = n := by omega
      subst he
      have h0 : (List.range i0).countP (fun j => decide (j = i0)) = 0 := by
        rw [List.countP_eq_zero]
        intro a ha
        have := List.mem_range.mp ha
        simp
        omega
      simp [h0]

/-- Exactly one of the ten equal-width half-open bins contains a point of
`[m, m + 10s)`. -/
lemma countP_inBin_unique (m s x : ℚ) (hs : 0 < s) (hmx : m ≤ x)
    (hxM : x < m + 10 * s) :
    (List.range 10).countP
      (fun i : ℕ => decide (m + (i : ℚ) * s ≤ x ∧ x < m + ((i : ℚ) + 1) * s)) = 1 := by
  have hr0 : 0 ≤ (x - m) / s := div_nonneg (by linarith) hs.le
  have hr10 : (x - m) / s < 10 := by
    rw [div_lt_iff hs]
    linarith
  have hfl0 : 0 ≤ ⌊(x - m) / s⌋ := Int.floor_nonneg.mpr hr0
  have hfl10 : ⌊(x - m) / s⌋ < 10 := Int.floor_lt.mpr (by exact_mod_cast hr10)
  have hi010 : (⌊(x - m) / s⌋).toNat < 10 := by omega
  have hcast : (((⌊(x - m) / s⌋).toNat : ℕ) : ℚ) = ((⌊(x - m) / s⌋ : ℤ) : ℚ) := by
    exact_mod_cast Int.toNat_of_nonneg hfl0
  have hpred : ∀ j ∈ List.range 10,
      ((decide (m + (j : ℚ) * s ≤ x ∧ x < m + ((j : ℚ) + 1) * s)) = true ↔
        (decide (j = (⌊(x - m) / s⌋).toNat)) = true) := by
    intro j _
    simp only [decide_eq_true_eq]
    constructor
    · rintro ⟨h1, h2⟩
      have hj1 : (j : ℚ) ≤ (x - m) / s := by
        rw [le_div_iff hs]
        linarith
      have hj2 : (x - m) / s < (j : ℚ) + 1 := by
        rw [div_lt_iff hs]
        linarith
      have hfl : ⌊(x - m) / s⌋ = (j : ℤ) := by
        rw [Int.floor_eq_iff]
        constructor
        · exact_mod_cast hj1
        · push_cast
          exact hj2
      omega
    · rintro rfl
      have h1 : (((⌊(x - m) / s⌋).toNat : ℕ) : ℚ) ≤ (x - m) / s := by
        rw [hcast]
        exact Int.floor_le _
      have h2 : (x - m) / s < (((⌊(x - m) / s⌋).toNat : ℕ) : ℚ) + 1 := by
        rw [hcast]
        exact Int.lt_floor_add_one _
      rw [le_div_iff hs] at h1
      rw [div_lt_iff hs] at h2
      constructor <;> linarith
  rw [List.countP_congr hpred]
  exact countP_eq_decide_range 10 _ hi010

/-- No bin contains a point at or above `m + 10s` (in particular not the
corpus maximum, which sits exactly at the last bin's open upper bound). -/
lemma countP_inBin_top (m s x : ℚ) (hs : 0 < s) (hx : m + 10 * s ≤ x) :
    (List.range 10).countP
      (fun i : ℕ => decide (m + (i : ℚ) * s ≤ x ∧ x < m + ((i : ℚ) + 1) * s)) = 0 := by
  rw [List.countP_eq_zero]
  intro j hj
  simp only [decide_eq_true_eq, not_and]
  intro _
  have hj10 : (j : ℚ) + 1 ≤ 10 := by
    have := List.mem_range.mp hj
    exact_mod_cast Nat.succ_le_of_lt this
  have hmul : ((j : ℚ) + 1) * s ≤ 10 * s := mul_le_mul_of_nonneg_right hj10 hs.le
  linarith

/-- `setImportance` always produces an importance in [0, 1]. -/
lemma setImportance_bounds (minSample : ℕ) (g : ModelFeature) :
    0 ≤ (TradingMLModel.setImportance minSample g).importance ∧
      (TradingMLModel.setImportance minSample g).importance ≤ 1 := by
  simp only [TradingMLModel.setImportance]
  split_ifs
  · simp
  · constructor
    · apply le_min _ (by norm_num)
      apply mul_nonneg _ (by norm_num)
      apply div_nonneg _ (Nat.cast_nonneg _)
      apply List.sum_nonneg
      intro x hx
      obtain ⟨r, -, rfl⟩ := List.mem_map.mp hx
      positivity
    · simp [min_le_right]

/-- A list of rationals each at most 1 sums to at most the list length. -/
lemma sum_le_length (l : List ℚ) (h : ∀ x ∈ l, x ≤ 1) : l.sum ≤ l.length := by
  induction l with
  | nil => simp
  | cons x xs ih =>
    simp only [List.sum_cons, List.length_cons]
    push_cast
    have h1 := h x (List.mem_cons_self x xs)
    have h2 := ih fun y hy => h y (List.mem_cons_of_mem x hy)
    linarith

/-- Every entry produced by the scoring loop on a freshly trained model
has `score = winRate * c` for some `c ∈ [0, 1]` (namely importance ×
sample weight). -/
lemma scoreFeatures_entry_shape (trades : List TradeFeatures) (f : TradeFeatures) :
    ∀ e ∈ TradingMLModel.scoreFeatures
      (TradingMLModel.train TradingMLModel.new trades) f,
      ∃ c : ℚ, 0 ≤ c ∧ c ≤ 1 ∧ e.score = e.winRate * c := by
  intro e he
  simp only [TradingMLModel.scoreFeatures] at he
  obtain ⟨p, hp, rfl⟩ := List.mem_map.mp he
  have himp : 0 ≤ p.2.importance ∧ p.2.importance ≤ 1 := by
    simp only [TradingMLModel.train] at hp
    obtain ⟨q, -, rfl⟩ := List.mem_map.mp hp
    exact setImportance_bounds _ _
  set sw := min (((TradingMLModel.findBin p.2.bins (getFVal f p.1)).2 : ℚ) /
    ((TradingMLModel.train TradingMLModel.new trades).minSampleSize : ℚ)) 1 with hsw
  have hsw0 : 0 ≤ sw := le_min (div_nonneg (Nat.cast_nonneg _) (Nat.cast_nonneg _)) (by norm_num)
  have hsw1 : sw ≤ 1 := min_le_right _ _
  refine ⟨p.2.importance * sw, mul_nonneg himp.1 hsw0,
    mul_le_one himp.2 hsw0 hsw1, ?_⟩
  dsimp only
  rw [mul_assoc]

/-- The bin-membership count of `binFeature`'s bins, re-expressed over
the bin indices. -/
lemma binFeature_countP (featureName : String) (trades : List TradeFeatures) (x : ℚ) :
    (TradingMLModel.binFeature featureName trades 10).bins.countP (inBin x) =
      (List.range 10).countP (fun i : ℕ =>
        decide (listMin (TradingMLModel.featureValues featureName trades) +
            (i : ℚ) * ((listMax (TradingMLModel.featureValues featureName trades) -
              listMin (TradingMLModel.featureValues featureName trades)) / 10) ≤ x ∧
          x < listMin (TradingMLModel.featureValues featureName trades) +
            ((i : ℚ) + 1) *
              ((listMax (TradingMLModel.featureValues featureName trades) -
                listMin (TradingMLModel.featureValues featureName trades)) / 10))) := by
  simp only [TradingMLModel.binFeature, Nat.cast_ofNat]
  rw [List.countP_map]
  apply List.countP_congr
  intro i _
  simp [inBin, Function.comp, ge_iff_le]

/-! ## Claims -/

/-- C5: calling `predict` on a model on which `train` has never been
called (the freshly constructed model) raises the `NotTrained` error for
every feature record; it never returns a default probability. -/
theorem claim_C5_predict_before_train (f : TradeFeatures) :
    TradingMLModel.predict TradingMLModel.new f =
      Except.error TradingMLModel.MLError.notTrained := rfl

/-- C8: with fewer than 50 historical candles, the multi-timeframe
alignment check returns `true` regardless of trend direction, trade
direction, and current candle. -/
theorem claim_C8_mtf_insufficient_data (trend_direction : Trend3) (direction : String)
    (currentCandle : Candle) (historicalCandles : List Candle)
    (h : historicalCandles.length < 50) :
    FeatureExtractor.checkMTFAlignment trend_direction direction currentCandle
      historicalCandles = true := by
  unfold FeatureExtractor.checkMTFAlignment
  simp [h]

/-- Witness for C8: the empty history. -/
theorem claim_C8_witness :
    ([] : List Candle).length < 50 ∧
    FeatureExtractor.checkMTFAlignment Trend3.neutral "short" defCandle [] = true :=
  ⟨by decide,
   claim_C8_mtf_insufficient_data Trend3.neutral "short" defCandle [] (by decide)⟩

/-- C4 (amended): the trend/structure contribution is the full weight
when trend and break-of-structure are both known and agree, **half** the
weight whenever the trend is known and they do not both agree (the
break-of-structure being unknown **or disagreeing**), 30% of the weight
when only the break-of-structure is known, and zero when neither is
known. -/
theorem claim_C4_trend_structure_contribution (analysis : SMCAnalysis)
    (currentPrice : ℚ) (weights : SMCWeights) :
    (analysis.trend.isSome → analysis.bos = analysis.trend →
      (UnifiedScoring.calculateConfluence analysis currentPrice weights).breakdown.trend_structure
        = weights.trend_structure) ∧
    (analysis.trend.isSome → analysis.bos ≠ analysis.trend →
      (UnifiedScoring.calculateConfluence analysis currentPrice weights).breakdown.trend_structure
        = weights.trend_structure * (1/2)) ∧
    (analysis.trend = none → analysis.bos.isSome →
      (UnifiedScoring.calculateConfluence analysis currentPrice weights).breakdown.trend_structure
        = weights.trend_structure * (3/10)) ∧
    (analysis.trend = none → analysis.bos = none →
      (UnifiedScoring.calculateConfluence analysis currentPrice weights).breakdown.trend_structure
        = 0) := by
  refine ⟨fun h1 h2 => ?_, fun h1 h2 => ?_, fun h1 h2 => ?_, fun h1 h2 => ?_⟩
  · have hb : analysis.bos.isSome := by rw [h2]; exact h1
    simp [UnifiedScoring.calculateConfluence, h1, hb, h2]
  · cases hbos : analysis.bos with
    | none => simp [UnifiedScoring.calculateConfluence, h1, hbos]
    | some d =>
      have hne : analysis.trend ≠ some d := by
        rw [← hbos]
        exact fun he => h2 he.symm
      simp [UnifiedScoring.calculateConfluence, h1, hbos, hne]
  · have hne : ¬(analysis.trend.isSome ∧ analysis.bos.isSome ∧
        analysis.trend = analysis.bos) := by
      rintro ⟨ht, -, -⟩
      simp [h1] at ht
    simp [UnifiedScoring.calculateConfluence, hne, h1, h2]
  · simp [UnifiedScoring.calculateConfluence, h1, h2]

/-- C4 counterexample: with trend `up` and break-of-structure `down`
(both known, disagreeing) and `trend_structure` weight 40, the
contribution is 20, not the claimed 0. -/
theorem claim_C4_counterexample :
    (UnifiedScoring.calculateConfluence c4DisagreeAnalysis 100 w40).breakdown.trend_structure
      = 20 ∧ (20 : ℚ) ≠ 0 := by
  constructor
  · decide
  · norm_num

/-- Witness for C4: the four cases of the amended statement at concrete
analyses and the default weight configuration. -/
theorem claim_C4_witness :
    (UnifiedScoring.calculateConfluence c4AgreeAnalysis 100 w40).breakdown.trend_structure
      = w40.trend_structure ∧
    (UnifiedScoring.calculateConfluence c4TrendOnlyAnalysis 100 w40).breakdown.trend_structure
      = w40.trend_structure * (1/2) ∧
    (UnifiedScoring.calculateConfluence c4BosOnlyAnalysis 100 w40).breakdown.trend_structure
      = w40.trend_structure * (3/10) ∧
    (UnifiedScoring.calculateConfluence emptyAnalysis 100 w40).breakdown.trend_structure
      = 0 :=
  ⟨(claim_C4_trend_structure_contribution c4AgreeAnalysis 100 w40).1 (by decide) (by decide),
   (claim_C4_trend_structure_contribution c4TrendOnlyAnalysis 100 w40).2.1 (by decide) (by decide),
   (claim_C4_trend_structure_contribution c4BosOnlyAnalysis 100 w40).2.2.1 (by decide) (by decide),
   (claim_C4_trend_structure_contribution emptyAnalysis 100 w40).2.2.2 (by decide) (by decide)⟩

/-- C7: at any iteration `i ≥ 2` still inside the iteration budget, if
the test-accuracy improvement over the previous iteration is below the
convergence threshold, the loop returns immediately: the audit trail ends
with that iteration's record and the training pool is returned unchanged —
no error-emphasis copies of that iteration's misclassified records are
appended. -/
theorem claim_C7_convergence_stops {α : Type} (cfg : BacktestLearnLoop.LoopConfig)
    (evalIter : ℕ → List α → ℚ × ℚ × List α) (fuel i : ℕ) (lastAccuracy : ℚ)
    (trainingData : List α) (recs : List BacktestLearnLoop.LoopIterationRec)
    (hi : 2 ≤ i)
    (himp : (evalIter i trainingData).2.1 - lastAccuracy < cfg.minAccuracyImprovement) :
    BacktestLearnLoop.runLoopFrom cfg evalIter (fuel + 1) i lastAccuracy trainingData recs =
      (recs ++ [⟨i, trainingData.length, (evalIter i trainingData).1,
        (evalIter i trainingData).2.1, (evalIter i trainingData).2.2.length,
        (evalIter i trainingData).2.1 - lastAccuracy⟩], trainingData) := by
  have h1 : 1 < i := hi
  simp only [BacktestLearnLoop.runLoopFrom]
  rw [if_pos ⟨h1, himp⟩]

/-- Witness for C7: the constant oracle improves by 0 < 0.005 at
iteration 2, so the run returns that single-record tail with the pool
untouched. -/
theorem claim_C7_witness :
    BacktestLearnLoop.runLoopFrom c7Config c7Eval 9 2 (1/2) [] [] =
      ([⟨2, 0, 1/2, 1/2, 1, 0⟩], []) := by
  have h := claim_C7_convergence_stops c7Config c7Eval 8 2 (1/2) ([] : List ℕ) []
    (le_refl 2) (by norm_num [c7Eval, c7Config])
  simpa [c7Eval] using h

/-- C2 (amended): each ATR value is the mean, over the trailing
`period`-bar window, of the per-candle measure
`max(high − low, |high − close|, |low − close|)` computed from each
candle's **own** close — not the previous candle's close as the claim
states. -/
theorem claim_C2_atr_own_close (candles : List Candle) (period k : ℕ)
    (hp : 0 < period) (hk : k + period ≤ candles.length) :
    (SMCIndicators.atr candles period).get? k =
      some ((((candles.drop k).take period).map SMCIndicators.trueRange).sum / period) := by
  have hklt : k < candles.length - (period - 1) := by omega
  unfold SMCIndicators.atr
  rw [List.get?_map, List.get?_range hklt, Option.map_some']
  unfold SMCIndicators.atrAt
  have hidx : period - 1 + k + 1 - period = k := by omega
  rw [hidx]
  have hmap : (List.range' k period).map (fun j => SMCIndicators.trueRange (getC candles j)) =
      (((List.range' k period).map (getC candles)).map SMCIndicators.trueRange) := by
    rw [List.map_map]
    rfl
  rw [hmap, map_getC_eq_drop_take candles period k hk]

/-- C2 counterexample: for 13 flat candles at 10 followed by a candle
(high 20, low 19, close 19) gapping away from the previous close 10, the
source ATR(14) value is 1/14, while the claimed prev-close true-range
mean is 5/7. -/
theorem claim_C2_counterexample :
    SMCIndicators.atr c2Candles 14 = [1/14] ∧
    specATRAt c2Candles 14 13 = 5/7 ∧
    (1/14 : ℚ) ≠ 5/7 := by
  refine ⟨by decide, by decide, by norm_num⟩

/-- Witness for C2: the amended statement evaluated at the concrete
candle list. -/
theorem claim_C2_witness :
    (SMCIndicators.atr c2Candles 14).get? 0 =
      some ((((c2Candles.drop 0).take 14).map SMCIndicators.trueRange).sum / 14) :=
  claim_C2_atr_own_close c2Candles 14 0 (by decide) (by decide)

/-- C3 (amended): when none of the scanned forward candles touches the
stop-loss or take-profit level, the exit price is the **entry** candle's
close (not the last scanned candle's close); since the caller passes the
entry candle's close as the entry price, the realized P&L is 0 and the
outcome is LOSS. -/
theorem claim_C3_no_touch_exit (candles : List Candle) (startIndex : ℕ)
    (entryPrice : ℚ) (direction : String) (analysisAtr : Option ℚ)
    (isLong : Bool) (stopLoss tp2 : ℚ)
    (hLong : isLong = decide (direction = "long"))
    (hsl : stopLoss = BacktestLearnLoop.tradeStopLoss entryPrice
      (BacktestLearnLoop.tradeAtr candles startIndex analysisAtr) isLong)
    (htp : tp2 = BacktestLearnLoop.tradeTp2 entryPrice stopLoss isLong)
    (hentry : entryPrice = (getC candles startIndex).close)
    (hnt : ∀ i ∈ List.range' (startIndex + 1)
        (min (startIndex + 100) candles.length - (startIndex + 1)),
      BacktestLearnLoop.touchesLevels (getC candles i) isLong stopLoss tp2 = false) :
    BacktestLearnLoop.simExitPrice candles startIndex isLong stopLoss tp2 =
      (getC candles startIndex).close ∧
    (BacktestLearnLoop.simulateTrade candles startIndex entryPrice direction analysisAtr).pnl
      = 0 ∧
    (BacktestLearnLoop.simulateTrade candles startIndex entryPrice direction analysisAtr).outcome
      = "LOSS" := by
  have hnone : (List.range' (startIndex + 1)
      (min (startIndex + 100) candles.length - (startIndex + 1))).find?
        (fun i => BacktestLearnLoop.touchesLevels (getC candles i) isLong stopLoss tp2)
      = none := by
    rw [List.find?_eq_none]
    intro x hx
    simp [hnt x hx]
  have hexit : BacktestLearnLoop.simExitPrice candles startIndex isLong stopLoss tp2 =
      (getC candles startIndex).close := by
    simp only [BacktestLearnLoop.simExitPrice]
    rw [hnone]
  refine ⟨hexit, ?_, ?_⟩ <;>
  · simp only [BacktestLearnLoop.simulateTrade]
    rw [← hLong, ← hsl, ← htp, hexit, ← hentry]
    cases isLong <;> simp

/-- C3 counterexample: in the concrete no-touch scenario the exit price
is the entry candle's close 100, not the last scanned candle's close 103,
and the realized P&L is 0 (outcome LOSS). -/
theorem claim_C3_counterexample :
    BacktestLearnLoop.simExitPrice c3Candles 0 true 98 106 = 100 ∧
    (getC c3Candles 2).close = 103 ∧
    ((100 : ℚ) ≠ 103) ∧
    (BacktestLearnLoop.simulateTrade c3Candles 0 100 "long" (some 1)).pnl = 0 := by
  refine ⟨by decide, by decide, by norm_num, by decide⟩

/-- Witness for C3: the amended statement at the concrete no-touch
scenario. -/
theorem claim_C3_witness :
    BacktestLearnLoop.simExitPrice c3Candles 0 true 98 106 = (getC c3Candles 0).close ∧
    (BacktestLearnLoop.simulateTrade c3Candles 0 100 "long" (some 1)).pnl = 0 ∧
    (BacktestLearnLoop.simulateTrade c3Candles 0 100 "long" (some 1)).outcome = "LOSS" :=
  claim_C3_no_touch_exit c3Candles 0 100 "long" (some 1) true 98 106
    (by decide) (by decide) (by decide) (by decide) (by decide)

/-- C6: every value of the RSI(14) list lies in [0, 100]; a window whose
average loss is zero (all consecutive differences gains) yields exactly
100, and a window whose every consecutive difference is a loss yields
exactly 0. -/
theorem claim_C6_rsi_bounds (candles : List Candle) (hlen : 15 ≤ candles.length) :
    (∀ v ∈ SMCIndicators.rsi candles 14, 0 ≤ v ∧ v ≤ 100) ∧
    (∀ k, k < (SMCIndicators.rsi candles 14).length →
      (windowAllGains (candles.map Candle.close) k →
        (SMCIndicators.rsi candles 14).get? k = some 100) ∧
      (windowAllLosses (candles.map Candle.close) k →
        (SMCIndicators.rsi candles 14).get? k = some 0)) := by
  constructor
  · intro v hv
    simp only [SMCIndicators.rsi, List.mem_map, List.mem_range] at hv
    obtain ⟨k, -, rfl⟩ := hv
    exact rsiStep_bounds (candles.map Candle.close) 14 (k + 14)
  · intro k hk
    rw [rsi_length] at hk
    have hidx : k + 14 - 14 = k := by omega
    constructor
    · intro hg
      rw [rsi_get? candles k hk]
      rw [rsiStep_allGains (candles.map Candle.close) 14 (k + 14) (by rw [hidx]; exact hg)]
    · intro hl
      rw [rsi_get? candles k hk]
      rw [rsiStep_allLosses (candles.map Candle.close) 14 (k + 14) (by norm_num)
        (by rw [hidx]; simp only [List.length_take, List.length_drop, List.length_map]; omega)
        (by rw [hidx]; exact hl)]

/-- Witness for C6: 15 flat candles — the single RSI value is 100 and in
range. -/
theorem claim_C6_witness :
    (∀ v ∈ SMCIndicators.rsi c6Candles 14, 0 ≤ v ∧ v ≤ 100) ∧
    (SMCIndicators.rsi c6Candles 14).get? 0 = some 100 := by
  have h := claim_C6_rsi_bounds c6Candles (by decide)
  exact ⟨h.1, (h.2 0 (by decide)).1 (by decide)⟩

/-- C9: in the `analyze` snapshot, each of `ema50`, `ema200`, `rsi`,
`atr`, `vwap` is `null` exactly when its series is empty or its latest
value is exactly 0 (zero coerced to null by `|| null`); in particular a
candle sequence whose final 14-bar close window is all losses yields
`rsi = null`, never the value 0. -/
theorem claim_C9_zero_coerced_to_null (candles : List Candle) :
    ((SMCIndicators.analyze candles).ema50 = none ↔
      (SMCIndicators.ema (candles.map Candle.close) 50 = [] ∨
        (SMCIndicators.ema (candles.map Candle.close) 50).getLast? = some 0)) ∧
    ((SMCIndicators.analyze candles).ema200 = none ↔
      (SMCIndicators.ema (candles.map Candle.close) 200 = [] ∨
        (SMCIndicators.ema (candles.map Candle.close) 200).getLast? = some 0)) ∧
    ((SMCIndicators.analyze candles).rsi = none ↔
      (SMCIndicators.rsi candles 14 = [] ∨
        (SMCIndicators.rsi candles 14).getLast? = some 0)) ∧
    ((SMCIndicators.analyze candles).atr = none ↔
      (SMCIndicators.atr candles 14 = [] ∨
        (SMCIndicators.atr candles 14).getLast? = some 0)) ∧
    ((SMCIndicators.analyze candles).vwap = none ↔
      (SMCIndicators.vwap candles = [] ∨
        (SMCIndicators.vwap candles).getLast? = some 0)) ∧
    (15 ≤ candles.length →
      windowAllLosses (candles.map Candle.close) (candles.length - 15) →
      (SMCIndicators.analyze candles).rsi = none) := by
  have hfields :
      (SMCIndicators.analyze candles).ema50 =
        jsLastOrNull (SMCIndicators.ema (candles.map Candle.close) 50) ∧
      (SMCIndicators.analyze candles).ema200 =
        jsLastOrNull (SMCIndicators.ema (candles.map Candle.close) 200) ∧
      (SMCIndicators.analyze candles).rsi =
        jsLastOrNull (SMCIndicators.rsi candles 14) ∧
      (SMCIndicators.analyze candles).atr =
        jsLastOrNull (SMCIndicators.atr candles 14) ∧
      (SMCIndicators.analyze candles).vwap =
        jsLastOrNull (SMCIndicators.vwap candles) := by
    refine ⟨?_, ?_, ?_, ?_, ?_⟩ <;> simp [SMCIndicators.analyze]
  refine ⟨?_, ?_, ?_, ?_, ?_, ?_⟩
  · rw [hfields.1]; exact jsLastOrNull_eq_none _
  · rw [hfields.2.1]; exact jsLastOrNull_eq_none _
  · rw [hfields.2.2.1]; exact jsLastOrNull_eq_none _
  · rw [hfields.2.2.2.1]; exact jsLastOrNull_eq_none _
  · rw [hfields.2.2.2.2]; exact jsLastOrNull_eq_none _
  · intro hlen hlosses
    rw [hfields.2.2.1, (jsLastOrNull_eq_none _).2]
    right
    have hk : candles.length - 15 < candles.length - 14 := by omega
    have hlast : (SMCIndicators.rsi candles 14).getLast? =
        (SMCIndicators.rsi candles 14).get? ((SMCIndicators.rsi candles 14).length - 1) := by
      rw [List.getLast?_eq_getElem?, List.get?_eq_getElem?]
    rw [hlast, rsi_length]
    have hidx2 : candles.length - 14 - 1 = candles.length - 15 := by omega
    rw [hidx2, rsi_get? candles (candles.length - 15) hk]
    have hidx3 : candles.length - 15 + 14 - 14 = candles.length - 15 := by omega
    rw [rsiStep_allLosses (candles.map Candle.close) 14 (candles.length - 15 + 14)
      (by norm_num)
      (by rw [hidx3]; simp only [List.length_take, List.length_drop, List.length_map]; omega)
      (by rw [hidx3]; exact hlosses)]

/-- Witness for C9: 16 strictly decreasing closes — the final RSI window
is all losses and `analyze` reports `rsi = null`. -/
theorem claim_C9_witness :
    (SMCIndicators.analyze c9Candles).rsi = none :=
  (claim_C9_zero_coerced_to_null c9Candles).2.2.2.2.2 (by decide) (by decide)

/-- C1 (amended): for a corpus whose observed minimum is strictly below
its maximum, `binFeature` builds 10 contiguous equal-width bins whose
`i`-th bounds are `min + i·size` and `min + (i+1)·size`; a point belongs
to some bin exactly when it lies in the half-open `[min, max)`; every
training value **strictly below the maximum** falls into exactly one bin;
and a value exactly equal to the corpus maximum falls into **no** bin
(every bin, the last included, has a strict upper bound). -/
theorem claim_C1_binning (featureName : String) (trades : List TradeFeatures)
    (hne : TradingMLModel.featureValues featureName trades ≠ [])
    (hlt : listMin (TradingMLModel.featureValues featureName trades) <
      listMax (TradingMLModel.featureValues featureName trades)) :
    (TradingMLModel.binFeature featureName trades 10).bins.length = 10 ∧
    (∀ i : ℕ, i < 10 →
      ((TradingMLModel.binFeature featureName trades 10).bins.get? i).map FeatureBin.min =
        some (listMin (TradingMLModel.featureValues featureName trades) +
          (i : ℚ) * ((listMax (TradingMLModel.featureValues featureName trades) -
            listMin (TradingMLModel.featureValues featureName trades)) / 10)) ∧
      ((TradingMLModel.binFeature featureName trades 10).bins.get? i).map FeatureBin.max =
        some (listMin (TradingMLModel.featureValues featureName trades) +
          ((i : ℚ) + 1) * ((listMax (TradingMLModel.featureValues featureName trades) -
            listMin (TradingMLModel.featureValues featureName trades)) / 10))) ∧
    (∀ x : ℚ,
      (∃ b ∈ (TradingMLModel.binFeature featureName trades 10).bins, inBin x b = true) ↔
        (listMin (TradingMLModel.featureValues featureName trades) ≤ x ∧
          x < listMax (TradingMLModel.featureValues featureName trades))) ∧
    (∀ v ∈ TradingMLModel.featureValues featureName trades,
      v < listMax (TradingMLModel.featureValues featureName trades) →
        (TradingMLModel.binFeature featureName trades 10).bins.countP (inBin v) = 1) ∧
    (TradingMLModel.binFeature featureName trades 10).bins.countP
      (inBin (listMax (TradingMLModel.featureValues featureName trades))) = 0 := by
  set vs := TradingMLModel.featureValues featureName trades with hvs
  have hs : 0 < (listMax vs - listMin vs) / 10 := div_pos (by linarith) (by norm_num)
  have hMs : listMin vs + 10 * ((listMax vs - listMin vs) / 10) = listMax vs := by ring
  refine ⟨?_, ?_, ?_, ?_, ?_⟩
  · simp [TradingMLModel.binFeature]
  · intro i hi
    constructor <;>
      simp [TradingMLModel.binFeature, List.get?_map, List.get?_range, hi]
  · intro x
    constructor
    · rintro ⟨b, hb, hxb⟩
      simp only [TradingMLModel.binFeature, Nat.cast_ofNat] at hb
      obtain ⟨i, hi, rfl⟩ := List.mem_map.mp hb
      have hi10 : i < 10 := List.mem_range.mp hi
      simp only [inBin, Bool.and_eq_true, decide_eq_true_eq, ge_iff_le] at hxb
      have his : 0 ≤ (i : ℚ) * ((listMax vs - listMin vs) / 10) :=
        mul_nonneg (Nat.cast_nonneg i) hs.le
      have hi1 : ((i : ℚ) + 1) ≤ 10 := by exact_mod_cast Nat.succ_le_of_lt hi10
      have hiub : ((i : ℚ) + 1) * ((listMax vs - listMin vs) / 10) ≤
          10 * ((listMax vs - listMin vs) / 10) :=
        mul_le_mul_of_nonneg_right hi1 hs.le
      constructor
      · linarith [hxb.1]
      · linarith [hxb.2]
    · rintro ⟨h1, h2⟩
      have hcount := countP_inBin_unique (listMin vs) ((listMax vs - listMin vs) / 10) x hs h1
        (by rw [hMs]; exact h2)
      rw [← binFeature_countP featureName trades x] at hcount
      have hpos : 0 < (TradingMLModel.binFeature featureName trades 10).bins.countP (inBin x) := by
        rw [hcount]
        norm_num
      exact List.countP_pos.mp hpos
  · intro v hv hvM
    rw [binFeature_countP featureName trades v]
    exact countP_inBin_unique (listMin vs) ((listMax vs - listMin vs) / 10) v hs
      (listMin_le vs v hv) (by rw [hMs]; exact hvM)
  · rw [binFeature_countP featureName trades (listMax vs)]
    exact countP_inBin_top (listMin vs) ((listMax vs - listMin vs) / 10) (listMax vs) hs hMs.le

/-- C1 counterexample: for the corpus with `trend_strength` values 0 and
10, the observed maximum 10 is a training value and the last bin's upper
bound is 10, yet the value 10 falls into **no** bin — refuting both "every
training value falls into exactly one bin" and "a value exactly equal to
the corpus maximum falls into the last bin". -/
theorem claim_C1_counterexample :
    (TradingMLModel.binFeature "trend_strength" c1Trades 10).bins.countP (inBin 10) = 0 ∧
    ((TradingMLModel.binFeature "trend_strength" c1Trades 10).bins.getLast?).map
      FeatureBin.max = some 10 ∧
    (10 : ℚ) ∈ TradingMLModel.featureValues "trend_strength" c1Trades ∧
    listMax (TradingMLModel.featureValues "trend_strength" c1Trades) = 10 := by
  refine ⟨by decide, by decide, by decide, by decide⟩

/-- Witness for C1: the amended statement at the two-record corpus — 10
bins, and the training value 0 (strictly below the maximum) falls into
exactly one bin. -/
theorem claim_C1_witness :
    (TradingMLModel.binFeature "trend_strength" c1Trades 10).bins.length = 10 ∧
    (TradingMLModel.binFeature "trend_strength" c1Trades 10).bins.countP (inBin 0) = 1 := by
  have h := claim_C1_binning "trend_strength" c1Trades (by decide) (by decide)
  exact ⟨h.1, h.2.2.2.1 0 (by decide) (by decide)⟩

/-- C10: on a trained model, whenever each of the top-10 scored features
resolves to a bin win rate different from 0 (so no 0/0 division occurs),
`predict` succeeds and its confidence is at most 0.01: each summand
`min(score / winRate, 100)` equals importance × sampleWeight ≤ 1, at most
10 features are summed, and the sum is divided by 1000 before the clamp
to 1. -/
theorem claim_C10_confidence_bound (trades : List TradeFeatures) (f : TradeFeatures)
    (hwr : ∀ e ∈ TradingMLModel.topFeatures
      (TradingMLModel.train TradingMLModel.new trades) f, e.winRate ≠ 0) :
    TradingMLModel.predict (TradingMLModel.train TradingMLModel.new trades) f =
      Except.ok (TradingMLModel.predictResult
        (TradingMLModel.train TradingMLModel.new trades) f) ∧
    (TradingMLModel.predictResult
      (TradingMLModel.train TradingMLModel.new trades) f).confidence ≤ 1 / 100 := by
  constructor
  · rfl
  · have hsub : ∀ e ∈ TradingMLModel.topFeatures
        (TradingMLModel.train TradingMLModel.new trades) f,
        e ∈ TradingMLModel.scoreFeatures
          (TradingMLModel.train TradingMLModel.new trades) f := by
      intro e he
      simp only [TradingMLModel.topFeatures] at he
      exact (List.mem_insertionSort _).mp (List.take_subset 10 _ he)
    have hterm : ∀ e ∈ TradingMLModel.topFeatures
        (TradingMLModel.train TradingMLModel.new trades) f,
        min (e.score / e.winRate) 100 ≤ 1 := by
      intro e he
      obtain ⟨c, hc0, hc1, hcs⟩ := scoreFeatures_entry_shape trades f e (hsub e he)
      have hw := hwr e he
      calc min (e.score / e.winRate) 100
          = min c 100 := by rw [hcs, mul_div_cancel_left₀ c hw]
        _ ≤ c := min_le_left _ _
        _ ≤ 1 := hc1
    have hlen : ((TradingMLModel.topFeatures
        (TradingMLModel.train TradingMLModel.new trades) f).map
          (fun e => min (e.score / e.winRate) 100)).length ≤ 10 := by
      rw [List.length_map]
      simp only [TradingMLModel.topFeatures]
      exact List.length_take_le 10 _
    have hsum : ((TradingMLModel.topFeatures
        (TradingMLModel.train TradingMLModel.new trades) f).map
          (fun e => min (e.score / e.winRate) 100)).sum ≤ 10 := by
      have h1 := sum_le_length ((TradingMLModel.topFeatures
          (TradingMLModel.train TradingMLModel.new trades) f).map
            (fun e => min (e.score / e.winRate) 100)) ?_
      · calc ((TradingMLModel.topFeatures
              (TradingMLModel.train TradingMLModel.new trades) f).map
                (fun e => min (e.score / e.winRate) 100)).sum
            ≤ (((TradingMLModel.topFeatures
              (TradingMLModel.train TradingMLModel.new trades) f).map
                (fun e => min (e.score / e.winRate) 100)).length : ℚ) := h1
          _ ≤ 10 := by exact_mod_cast hlen
      · intro x hx
        obtain ⟨e, he, rfl⟩ := List.mem_map.mp hx
        exact hterm e he
    simp only [TradingMLModel.predictResult]
    calc min (((TradingMLModel.topFeatures
          (TradingMLModel.train TradingMLModel.new trades) f).map
            (fun e => min (e.score / e.winRate) 100)).sum / 1000) 1
        ≤ ((TradingMLModel.topFeatures
          (TradingMLModel.train TradingMLModel.new trades) f).map
            (fun e => min (e.score / e.winRate) 100)).sum / 1000 := min_le_left _ _
      _ ≤ 10 / 1000 := by linarith
      _ = 1 / 100 := by norm_num

/-- Witness for C10: a two-record all-win corpus and the first record as
query — every top-10 entry has win rate 1 or 0.5, and the confidence is
bounded by 0.01. -/
theorem claim_C10_witness :
    TradingMLModel.predict (TradingMLModel.train TradingMLModel.new c10Trades) sampleTrade =
      Except.ok (TradingMLModel.predictResult
        (TradingMLModel.train TradingMLModel.new c10Trades) sampleTrade) ∧
    (TradingMLModel.predictResult
      (TradingMLModel.train TradingMLModel.new c10Trades) sampleTrade).confidence ≤ 1 / 100 :=
  claim_C10_confidence_bound c10Trades sampleTrade (by decide)

end LearningOrchestrator
